import Mathlib

/-!
# Distributed Leaderboard System — verification of the core engine and handler

Shallow embedding of `src/server.py`:

* `LeaderboardEngine` (`update`, `get_top`, `get_player`, `stats`) — the
  mutex-protected score store with last-write-wins conflict resolution.
  The Python `dict` is modelled as an insertion-ordered association list
  (Python 3.7+ dicts preserve insertion order, and assigning to an existing
  key keeps its position); `time.time()` values and update timestamps are
  modelled as rationals; scores are integers (`int(msg["score"])`).
* `ClientHandler._handle` — per-frame dispatch, modelled as `handle`, a
  function from engine state and one decoded frame to a response envelope
  and the post-state.  Wall-clock reads (`time.time()`, `time.perf_counter`)
  are passed in as the parameter `now`; the measured `latency_ms` field of
  the ok-envelope is not modelled.

All definitions are executable so concrete protocol exchanges can be
evaluated inside proofs.
-/

namespace Leaderboard

/-- A JSON scalar value as decoded by `json.loads`: the values that can sit
in a request field.  (Nested arrays/objects never occur in well-formed
requests of this protocol and are not modelled.) -/
inductive PyVal where
  | vnull : PyVal
  | vbool : Bool → PyVal
  | vint : Int → PyVal
  | vrat : ℚ → PyVal
  | vstr : String → PyVal
deriving DecidableEq

/-- One stored record: the Python dict
`{"score": score, "name": name, "ts": timestamp}` built in
`LeaderboardEngine.update`. -/
structure Record where
  score : Int
  name : PyVal
  ts : ℚ
deriving DecidableEq

/-- `self._scores.get(player_id)` on the insertion-ordered dict. -/
def dictGet : List (PyVal × Record) → PyVal → Option Record
  | [], _ => none
  | (k, v) :: rest, pid => if k = pid then some v else dictGet rest pid

/-- `self._scores[player_id] = rec` on the insertion-ordered dict: an
existing key keeps its position, a new key is appended. -/
def dictSet : List (PyVal × Record) → PyVal → Record → List (PyVal × Record)
  | [], pid, r => [(pid, r)]
  | (k, v) :: rest, pid, r =>
      if k = pid then (pid, r) :: rest else (k, v) :: dictSet rest pid r

/-- State of `LeaderboardEngine`: `self._scores`, `self._update_count`,
`self._start_time`.  (The `RLock` serialises operations; each operation is
modelled as one atomic state transition.) -/
structure LeaderboardEngine where
  scores : List (PyVal × Record)
  update_count : Nat
  start_time : ℚ
deriving DecidableEq

/-- `LeaderboardEngine.__init__` at clock value `t0`. -/
def freshEngine (t0 : ℚ) : LeaderboardEngine :=
  { scores := [], update_count := 0, start_time := t0 }

/-- The dict returned by `LeaderboardEngine.update`:
`{"status": ..., "current_score": ...}`. -/
structure UpdResult where
  status : String
  current_score : Int
deriving DecidableEq

/-- `LeaderboardEngine.update`: accept only if the player is new or the
incoming timestamp is strictly greater than the stored one
(`existing is None or timestamp > existing["ts"]`). -/
def update (e : LeaderboardEngine) (player_id name : PyVal) (score : Int)
    (timestamp : ℚ) : UpdResult × LeaderboardEngine :=
  match dictGet e.scores player_id with
  | none =>
      (⟨"accepted", score⟩,
        { e with
          scores := dictSet e.scores player_id ⟨score, name, timestamp⟩
          update_count := e.update_count + 1 })
  | some existing =>
      if existing.ts < timestamp then
        (⟨"accepted", score⟩,
          { e with
            scores := dictSet e.scores player_id ⟨score, name, timestamp⟩
            update_count := e.update_count + 1 })
      else
        (⟨"rejected", existing.score⟩, e)

/-- One leaderboard entry produced by `get_top`:
`{"rank": ..., "player_id": pid, "name": ..., "score": ...}`. -/
structure Entry where
  rank : Nat
  player_id : PyVal
  name : PyVal
  score : Int
deriving DecidableEq

/-- The snapshot dict built for one store item inside `get_top`
(`rank` starts out as `0`). -/
def snapshotEntry (p : PyVal × Record) : Entry :=
  ⟨0, p.1, p.2.name, p.2.score⟩

/-- The comparison realised by
`sorted(..., key=lambda x: x["score"], reverse=True)`: a stable sort that
puts larger scores first and keeps snapshot order among equal scores. -/
def scoreDescLe (a b : Entry) : Bool :=
  decide (b.score ≤ a.score)

/-- The Python slice `xs[:n]` (for negative `n` the stop index is
`max(len(xs) + n, 0)`). -/
def pySlice {α : Type} (xs : List α) (n : Int) : List α :=
  xs.take (if 0 ≤ n then n.toNat else ((xs.length : Int) + n).toNat)

/-- `LeaderboardEngine.get_top`: snapshot all records, stable-sort by score
descending, slice to `n`, then assign ranks `1..k` in order
(`enumerate(ranked[:n], 1)`). -/
def get_top (e : LeaderboardEngine) (n : Int) : List Entry :=
  let ranked := (e.scores.map snapshotEntry).mergeSort scoreDescLe
  (List.enumFrom 1 (pySlice ranked n)).map fun p => { p.2 with rank := p.1 }

/-- `LeaderboardEngine.get_player`: `self._scores.get(player_id)`. -/
def get_player (e : LeaderboardEngine) (player_id : PyVal) : Option Record :=
  dictGet e.scores player_id

/-- Python `round(x, 2)` modelled exactly on rationals: round to the nearest
multiple of `1/100`, ties to the even multiple (Python rounds half to even
on the underlying float). -/
def pyRound2 (q : ℚ) : ℚ :=
  let s := 100 * q
  let f := s.floor
  let r : Int :=
    if s - (f : ℚ) < mkRat 1 2 then f
    else if mkRat 1 2 < s - (f : ℚ) then f + 1
    else if f % 2 = 0 then f else f + 1
  mkRat r 100

/-- The dict returned by `LeaderboardEngine.stats`. -/
structure Stats where
  total_players : Nat
  total_updates : Nat
  uptime_seconds : ℚ
  updates_per_sec : ℚ
deriving DecidableEq

/-- `LeaderboardEngine.stats` at clock value `now`
(`elapsed = time.time() - self._start_time`).  The rate divides by
`max(elapsed, 1)` — the raw elapsed time, not the rounded
`uptime_seconds` field. -/
def stats (e : LeaderboardEngine) (now : ℚ) : Stats :=
  let elapsed := now - e.start_time
  { total_players := e.scores.length
    total_updates := e.update_count
    uptime_seconds := pyRound2 elapsed
    updates_per_sec := pyRound2 ((e.update_count : ℚ) / max elapsed 1) }

/-! ### The per-frame protocol handler (`ClientHandler._handle`) -/

/-- A decoded request object: the JSON dict of one frame.  Duplicate keys
follow `json.loads` (the last occurrence wins, see `msgGet`). -/
def Msg : Type := List (String × PyVal)

/-- Field access `msg.get(k)` on the decoded JSON object. -/
def msgGet (m : Msg) (k : String) : Option PyVal :=
  List.lookup k m.reverse

/-- One inbound frame: either raw text that `json.loads` cannot turn into a
JSON object (a decode error, or a non-object result on which `.get` then
fails), or a decoded request object. -/
inductive Frame where
  | malformed : String → Frame
  | decoded : Msg → Frame

/-- `s.upper()` for the ASCII command names of this protocol. -/
def pyUpper (s : String) : String :=
  String.mk (s.data.map Char.toUpper)

/-- `msg.get("cmd", "").upper()`: a missing `cmd` yields `""`, a non-string
`cmd` raises `AttributeError` (modelled as `none`, caught by the handler's
`except` clause). -/
def cmdOf (m : Msg) : Option String :=
  match msgGet m "cmd" with
  | none => some ""
  | some (.vstr s) => some (pyUpper s)
  | some _ => none

/-- A digit string to its value; `none` unless non-empty and all digits. -/
def digitsToNat (cs : List Char) : Option Nat :=
  if !cs.isEmpty && cs.all Char.isDigit then
    some (cs.foldl (fun acc c => 10 * acc + (c.toNat - 48)) 0)
  else none

/-- Strip leading and trailing whitespace (Python `int()`/`float()` strip
the argument string). -/
def stripChars (cs : List Char) : List Char :=
  ((cs.dropWhile Char.isWhitespace).reverse.dropWhile Char.isWhitespace).reverse

/-- Python `int(s)` on a string: optional sign, then decimal digits.
(Digit-group underscores are not modelled.) -/
def pyIntOfStr (s : String) : Option Int :=
  match stripChars s.data with
  | '+' :: rest => (digitsToNat rest).map Int.ofNat
  | '-' :: rest => (digitsToNat rest).map fun k => -(k : Int)
  | cs => (digitsToNat cs).map Int.ofNat

/-- Truncation toward zero: Python `int()` applied to a float. -/
def truncQ (q : ℚ) : Int :=
  if 0 ≤ q then q.floor else -((-q).floor)

/-- Python `int(v)` on a decoded JSON value: ints pass through, floats
truncate toward zero, bools map to 0/1, numeric strings parse, anything
else raises (`none`). -/
def pyInt : PyVal → Option Int
  | .vint k => some k
  | .vrat q => some (truncQ q)
  | .vbool b => some (if b then 1 else 0)
  | .vstr s => pyIntOfStr s
  | .vnull => none

/-- The value of a digit list, total (`0` for the empty list). -/
def digitsVal (cs : List Char) : Nat :=
  cs.foldl (fun acc c => 10 * acc + (c.toNat - 48)) 0

/-- Python `float(s)` on an unsigned body: `digits`, `digits.digits`,
`.digits` or `digits.` (exponents and `inf`/`nan` are not modelled). -/
def pyFloatBody (cs : List Char) : Option ℚ :=
  let ip := cs.takeWhile Char.isDigit
  match cs.dropWhile Char.isDigit with
  | [] => if ip.isEmpty then none else some ((digitsVal ip : Nat) : ℚ)
  | '.' :: fp =>
      if fp.all Char.isDigit && !(ip.isEmpty && fp.isEmpty) then
        some (mkRat (digitsVal ip * 10 ^ fp.length + digitsVal fp) (10 ^ fp.length))
      else none
  | _ => none

/-- Python `float(s)` on a string. -/
def pyFloatOfStr (s : String) : Option ℚ :=
  match stripChars s.data with
  | '+' :: rest => pyFloatBody rest
  | '-' :: rest => (pyFloatBody rest).map Neg.neg
  | cs => pyFloatBody cs

/-- Python `float(v)` on a decoded JSON value. -/
def pyFloat : PyVal → Option ℚ
  | .vint k => some (k : ℚ)
  | .vrat q => some q
  | .vbool b => some (if b then 1 else 0)
  | .vstr s => pyFloatOfStr s
  | .vnull => none

/-- `TOP_N = 10`. -/
def TOP_N : Int := 10

/-- The argument expression `float(msg.get("ts", time.time()))` of the
`UPDATE` dispatch: an absent `ts` defaults to the current time, a present
one goes through `float()`. -/
def tsArg (m : Msg) (now : ℚ) : Option ℚ :=
  match msgGet m "ts" with
  | none => some now
  | some tv => pyFloat tv

/-- The argument expression `int(msg.get("n", TOP_N))` of the `GET_TOP`
dispatch. -/
def nArg (m : Msg) : Option Int :=
  match msgGet m "n" with
  | none => some TOP_N
  | some v => pyInt v

/-- The `data` payload of an ok-envelope, one constructor per shape the
handler builds.  `errPayload` is the dict `{"error": msg}` used both for
`GET_PLAYER` misses and for unknown commands. -/
inductive RespData where
  | updateData : String → Int → List Entry → RespData
  | topData : List Entry → RespData
  | playerData : Record → RespData
  | errPayload : String → RespData
  | statsData : Stats → RespData
  | pongData : ℚ → RespData
deriving DecidableEq

/-- The response envelope: `{"status": "ok", "latency_ms": ..., "data": ...}`
(latency not modelled) or `{"status": "error", "message": ...}`. -/
inductive Resp where
  | ok : RespData → Resp
  | err : String → Resp
deriving DecidableEq

/-- `true` exactly on the `status: error` envelope. -/
def isErrorResp : Resp → Bool
  | .err _ => true
  | .ok _ => false

/-- `ClientHandler._handle` on one frame, at clock value `now`, against
engine state `e`: returns the response envelope and the engine post-state.
Every exception raised while decoding or validating (missing key, failed
`int()`/`float()` coercion, `.upper()` on a non-string) is caught by the
surrounding `except` and becomes a `status: error` envelope.  In the
`GET_PLAYER` branch, `p if p else {...}` takes the not-found arm exactly
when `get_player` misses, since stored records are non-empty dicts. -/
def handle (e : LeaderboardEngine) (now : ℚ) (f : Frame) :
    Resp × LeaderboardEngine :=
  match f with
  | .malformed _ => (.err "json decode error", e)
  | .decoded m =>
    match cmdOf m with
    | none => (.err "cmd has no attribute upper", e)
    | some cmd =>
      if cmd = "UPDATE" then
        match msgGet m "player_id" with
        | none => (.err "KeyError: player_id", e)
        | some pid =>
          let name := (msgGet m "name").getD pid
          match msgGet m "score" with
          | none => (.err "KeyError: score", e)
          | some sv =>
            match pyInt sv with
            | none => (.err "invalid literal for int", e)
            | some score =>
              match tsArg m now with
              | none => (.err "could not convert to float", e)
              | some ts =>
                let r := update e pid name score ts
                (.ok (.updateData r.1.status r.1.current_score
                        (get_top r.2 TOP_N)), r.2)
      else if cmd = "GET_TOP" then
        match nArg m with
        | none => (.err "invalid literal for int", e)
        | some n => (.ok (.topData (get_top e n)), e)
      else if cmd = "GET_PLAYER" then
        match msgGet m "player_id" with
        | none => (.err "KeyError: player_id", e)
        | some pid =>
          match get_player e pid with
          | some r => (.ok (.playerData r), e)
          | none => (.ok (.errPayload "player not found"), e)
      else if cmd = "STATS" then
        (.ok (.statsData (stats e now)), e)
      else if cmd = "PING" then
        (.ok (.pongData now), e)
      else
        (.ok (.errPayload ("unknown command: " ++ cmd)), e)

/-! ### Derived forms used by the claims -/

/-- One `UPDATE` request's arguments, as passed to `LeaderboardEngine.update`
after validation. -/
structure UpdReq where
  pid : PyVal
  name : PyVal
  score : Int
  ts : ℚ
deriving DecidableEq

/-- Apply a list of validated updates in order, collecting each call's
result dict. -/
def runUpdates (e : LeaderboardEngine) :
    List UpdReq → List UpdResult × LeaderboardEngine
  | [] => ([], e)
  | u :: rest =>
    let s := update e u.pid u.name u.score u.ts
    let t := runUpdates s.2 rest
    (s.1 :: t.1, t.2)

/-- Number of accepted results in a result list. -/
def countAccepted (rs : List UpdResult) : Nat :=
  (rs.filter fun r => r.status = "accepted").length

/-- State-passing form of `get_top`: the method body only reads
`self._scores`; the `e["rank"] = i` writes hit the fresh snapshot dicts
built by the comprehension, never the store, so the post-state is the
pre-state. -/
def get_topS (e : LeaderboardEngine) (n : Int) :
    List Entry × LeaderboardEngine :=
  (get_top e n, e)

/-- State-passing form of `get_player` (a pure `dict.get`). -/
def get_playerS (e : LeaderboardEngine) (player_id : PyVal) :
    Option Record × LeaderboardEngine :=
  (get_player e player_id, e)

/-- State-passing form of `stats` (reads the counters, writes nothing). -/
def statsS (e : LeaderboardEngine) (now : ℚ) :
    Stats × LeaderboardEngine :=
  (stats e now, e)

/-- The decoded requests that hit the decode/validation error path of
`_handle`: a frame that is not a JSON object, a non-string `cmd`, a missing
required field, or a required/optional field on which the `int()`/`float()`
coercion raises. -/
def badRequest : Frame → Bool
  | .malformed _ => true
  | .decoded m =>
    match cmdOf m with
    | none => true
    | some cmd =>
      if cmd = "UPDATE" then
        match msgGet m "player_id", msgGet m "score" with
        | none, _ => true
        | some _, none => true
        | some _, some sv =>
          (pyInt sv).isNone ||
            (match msgGet m "ts" with
             | some tv => (pyFloat tv).isNone
             | none => false)
      else if cmd = "GET_TOP" then
        match msgGet m "n" with
        | some v => (pyInt v).isNone
        | none => false
      else if cmd = "GET_PLAYER" then
        (msgGet m "player_id").isNone
      else false

/-! ## Helper lemmas about the store dictionary -/

theorem dictGet_dictSet_self (d : List (PyVal × Record)) (k : PyVal) (v : Record) :
    dictGet (dictSet d k v) k = some v := by
  induction d with
  | nil => simp [dictGet, dictSet]
  | cons p rest ih =>
    by_cases h : p.1 = k
    · simp [dictGet, dictSet, h]
    · simp [dictGet, dictSet, h, ih]

theorem dictGet_dictSet_ne (d : List (PyVal × Record)) (k q : PyVal) (v : Record)
    (h : q ≠ k) : dictGet (dictSet d k v) q = dictGet d q := by
  induction d with
  | nil => simp [dictGet, dictSet, Ne.symm h]
  | cons p rest ih =>
    by_cases hk : p.1 = k
    · simp [dictGet, dictSet, hk, Ne.symm h]
    · simp [dictGet, dictSet, hk, ih]

/-- Characterisation of an accepted update (new player or newer timestamp). -/
theorem update_accepted (e : LeaderboardEngine) (pid nm : PyVal) (sc : Int) (ts : ℚ)
    (h : dictGet e.scores pid = none ∨ ∃ r, dictGet e.scores pid = some r ∧ r.ts < ts) :
    update e pid nm sc ts =
      (⟨"accepted", sc⟩,
        { e with
          scores := dictSet e.scores pid ⟨sc, nm, ts⟩
          update_count := e.update_count + 1 }) := by
  rcases h with h | ⟨r, hr, hts⟩
  · simp [update, h]
  · simp [update, hr, hts]

/-- An update never touches another player's record. -/
theorem dictGet_update_ne (e : LeaderboardEngine) (pid nm : PyVal) (sc : Int) (ts : ℚ)
    (q : PyVal) (h : q ≠ pid) :
    dictGet (update e pid nm sc ts).2.scores q = dictGet e.scores q := by
  unfold update
  rcases hg : dictGet e.scores pid with _ | r
  · simpa using dictGet_dictSet_ne e.scores pid q _ h
  · by_cases hts : r.ts < ts
    · simpa [hts] using dictGet_dictSet_ne e.scores pid q _ h
    · simp [hts]

/-! ## C1 — stale updates are rejected and change nothing -/

/-- C1: if `player_id` is stored with record `r` and the incoming timestamp
is ≤ `r.ts`, the update is rejected: the result dict is
`{"status": "rejected", "current_score": r.score}` and the engine state —
the whole player mapping, hence the stored record, and `update_count` — is
returned unchanged. -/
theorem stale_update_rejected (e : LeaderboardEngine) (pid nm : PyVal) (sc : Int)
    (ts : ℚ) (r : Record) (hr : dictGet e.scores pid = some r) (hts : ts ≤ r.ts) :
    update e pid nm sc ts = (⟨"rejected", r.score⟩, e) := by
  simp [update, hr, not_lt.mpr hts]

/-- Witness for C1: a store holding `p1 ↦ {score 10, ts 1}` rejects an
equal-timestamp update and is left intact. -/
theorem stale_update_rejected_witness :
    update ⟨[(PyVal.vstr "p1", ⟨10, PyVal.vstr "p1", 1⟩)], 1, 0⟩
        (PyVal.vstr "p1") (PyVal.vstr "p1") 5 1 =
      (⟨"rejected", 10⟩, ⟨[(PyVal.vstr "p1", ⟨10, PyVal.vstr "p1", 1⟩)], 1, 0⟩) :=
  stale_update_rejected _ _ _ _ _ ⟨10, PyVal.vstr "p1", 1⟩ (by decide) (by decide)

/-! ## C9 — an absent player is always inserted, whatever the timestamp -/

/-- C9: for a `player_id` not in the store, `update` accepts any timestamp
(zero and negative included): the record is created with exactly the given
score, name and timestamp, `update_count` goes up by one, and the result
dict reports acceptance with `current_score` equal to the given score. -/
theorem absent_player_update_accepted (e : LeaderboardEngine) (pid nm : PyVal)
    (sc : Int) (ts : ℚ) (h : dictGet e.scores pid = none) :
    update e pid nm sc ts =
      (⟨"accepted", sc⟩,
        { e with
          scores := dictSet e.scores pid ⟨sc, nm, ts⟩
          update_count := e.update_count + 1 }) ∧
    dictGet (update e pid nm sc ts).2.scores pid = some ⟨sc, nm, ts⟩ := by
  refine ⟨update_accepted e pid nm sc ts (Or.inl h), ?_⟩
  rw [update_accepted e pid nm sc ts (Or.inl h)]
  exact dictGet_dictSet_self e.scores pid _

/-- Witness for C9: inserting at a negative timestamp and at timestamp zero
both succeed on stores not containing the player. -/
theorem absent_player_update_accepted_witness :
    (update ⟨[], 0, 0⟩ (PyVal.vstr "p1") (PyVal.vstr "n") 7 (-5) =
        (⟨"accepted", 7⟩, ⟨[(PyVal.vstr "p1", ⟨7, PyVal.vstr "n", -5⟩)], 1, 0⟩) ∧
      dictGet (update ⟨[], 0, 0⟩ (PyVal.vstr "p1") (PyVal.vstr "n") 7 (-5)).2.scores
          (PyVal.vstr "p1") = some ⟨7, PyVal.vstr "n", -5⟩) ∧
    (update ⟨[(PyVal.vstr "q", ⟨1, PyVal.vstr "q", 2⟩)], 3, 0⟩
          (PyVal.vstr "p2") (PyVal.vstr "p2") 0 0 =
        (⟨"accepted", 0⟩,
          ⟨[(PyVal.vstr "q", ⟨1, PyVal.vstr "q", 2⟩),
            (PyVal.vstr "p2", ⟨0, PyVal.vstr "p2", 0⟩)], 4, 0⟩) ∧
      dictGet (update ⟨[(PyVal.vstr "q", ⟨1, PyVal.vstr "q", 2⟩)], 3, 0⟩
            (PyVal.vstr "p2") (PyVal.vstr "p2") 0 0).2.scores
          (PyVal.vstr "p2") = some ⟨0, PyVal.vstr "p2", 0⟩) :=
  ⟨absent_player_update_accepted _ _ _ _ _ (by decide),
   absent_player_update_accepted _ _ _ _ _ (by decide)⟩

/-! ## C2 — strictly increasing timestamps are all accepted (LWW monotonicity) -/

/-- Core induction for C2, phrased on a non-empty cons cell. -/
theorem runUpdates_all_accepted (pid : PyVal) :
    ∀ (rest : List UpdReq) (u : UpdReq) (e : LeaderboardEngine),
      u.pid = pid → (∀ v ∈ rest, v.pid = pid) →
      List.Chain' (fun a b : UpdReq => a.ts < b.ts) (u :: rest) →
      (∀ r, dictGet e.scores pid = some r → r.ts < u.ts) →
      (runUpdates e (u :: rest)).1 =
          (u :: rest).map (fun v => ⟨"accepted", v.score⟩) ∧
        dictGet (runUpdates e (u :: rest)).2.scores pid =
          some ⟨((u :: rest).getLast (List.cons_ne_nil u rest)).score,
                ((u :: rest).getLast (List.cons_ne_nil u rest)).name,
                ((u :: rest).getLast (List.cons_ne_nil u rest)).ts⟩ := by
  intro rest
  induction rest with
  | nil =>
    intro u e hu _ _ hfirst
    have hacc : update e u.pid u.name u.score u.ts =
        (⟨"accepted", u.score⟩,
          { e with
            scores := dictSet e.scores u.pid ⟨u.score, u.name, u.ts⟩
            update_count := e.update_count + 1 }) := by
      apply update_accepted
      rcases hg : dictGet e.scores u.pid with _ | r
      · exact Or.inl rfl
      · exact Or.inr ⟨r, rfl, hfirst r (hu ▸ hg)⟩
    subst hu
    simp [runUpdates, hacc, dictGet_dictSet_self]
  | cons v rest ih =>
    intro u e hu hrest hchain hfirst
    have hacc : update e u.pid u.name u.score u.ts =
        (⟨"accepted", u.score⟩,
          { e with
            scores := dictSet e.scores u.pid ⟨u.score, u.name, u.ts⟩
            update_count := e.update_count + 1 }) := by
      apply update_accepted
      rcases hg : dictGet e.scores u.pid with _ | r
      · exact Or.inl rfl
      · exact Or.inr ⟨r, rfl, hfirst r (hu ▸ hg)⟩
    have huv : u.ts < v.ts := (List.chain'_cons.mp hchain).1
    have hchain2 : List.Chain' (fun a b : UpdReq => a.ts < b.ts) (v :: rest) :=
      (List.chain'_cons.mp hchain).2
    have hnext := ih v
      { e with
        scores := dictSet e.scores u.pid ⟨u.score, u.name, u.ts⟩
        update_count := e.update_count + 1 }
      (hrest v (List.mem_cons_self v rest))
      (fun w hw => hrest w (List.mem_cons_of_mem v hw))
      hchain2
      (by
        intro r hr
        rw [hu, dictGet_dictSet_self] at hr
        cases hr
        exact huv)
    refine ⟨?_, ?_⟩
    · simp only [runUpdates, hacc, List.map_cons]
      exact congrArg _ hnext.1
    · simp only [runUpdates, hacc]
      rw [List.getLast_cons (List.cons_ne_nil v rest)]
      exact hnext.2

/-- C2: a non-empty sequence of updates to one `player_id`, with strictly
increasing timestamps, whose first timestamp beats whatever is stored for
that player, is accepted in full: every call returns
`{"status": "accepted", "current_score": that update's score}`, and
afterwards the stored record carries the last update's score, name and
timestamp. -/
theorem lww_monotonicity (e : LeaderboardEngine) (pid : PyVal) (us : List UpdReq)
    (hne : us ≠ [])
    (hpid : ∀ u ∈ us, u.pid = pid)
    (hinc : List.Chain' (fun a b : UpdReq => a.ts < b.ts) us)
    (hfirst : ∀ u, us.head? = some u →
      ∀ r, dictGet e.scores pid = some r → r.ts < u.ts) :
    (runUpdates e us).1 = us.map (fun v => ⟨"accepted", v.score⟩) ∧
      dictGet (runUpdates e us).2.scores pid =
        some ⟨(us.getLast hne).score, (us.getLast hne).name, (us.getLast hne).ts⟩ := by
  match us, hne with
  | u :: rest, _ =>
    exact runUpdates_all_accepted pid rest u e
      (hpid u (List.mem_cons_self u rest))
      (fun v hv => hpid v (List.mem_cons_of_mem u hv))
      hinc
      (hfirst u rfl)

/-- Witness for C2: scenarios 1 and 3 of the spec — two updates to `p1`
with timestamps 1 then 2 on a fresh store are both accepted and the final
record is the second update's. -/
theorem lww_monotonicity_witness :
    (runUpdates ⟨[], 0, 0⟩
        [⟨PyVal.vstr "p1", PyVal.vstr "p1", 10, 1⟩,
         ⟨PyVal.vstr "p1", PyVal.vstr "p1", 20, 2⟩]).1 =
      [⟨"accepted", 10⟩, ⟨"accepted", 20⟩] ∧
    dictGet (runUpdates ⟨[], 0, 0⟩
        [⟨PyVal.vstr "p1", PyVal.vstr "p1", 10, 1⟩,
         ⟨PyVal.vstr "p1", PyVal.vstr "p1", 20, 2⟩]).2.scores (PyVal.vstr "p1") =
      some ⟨20, PyVal.vstr "p1", 2⟩ :=
  lww_monotonicity ⟨[], 0, 0⟩ (PyVal.vstr "p1")
    [⟨PyVal.vstr "p1", PyVal.vstr "p1", 10, 1⟩,
     ⟨PyVal.vstr "p1", PyVal.vstr "p1", 20, 2⟩]
    (by decide) (by decide)
    (List.chain'_cons.mpr ⟨by decide, List.chain'_singleton _⟩)
    (fun u _ r hr => nomatch hr)

/-! ## C6 — `update_count` counts exactly the accepted updates -/

/-- One call to `update` bumps the counter exactly when the result dict
says `accepted`, and leaves it alone when it says `rejected`. -/
theorem update_count_step (e : LeaderboardEngine) (pid nm : PyVal) (sc : Int)
    (ts : ℚ) :
    (update e pid nm sc ts).2.update_count =
      e.update_count +
        (if (update e pid nm sc ts).1.status = "accepted" then 1 else 0) := by
  unfold update
  rcases dictGet e.scores pid with _ | r
  · simp
  · by_cases hts : r.ts < ts <;> simp [hts]

set_option linter.unnecessarySeqFocus false in
/-- Over any run the counter is the starting counter plus the number of
accepted results. -/
theorem runUpdates_update_count :
    ∀ (us : List UpdReq) (e : LeaderboardEngine),
      (runUpdates e us).2.update_count =
        e.update_count + countAccepted (runUpdates e us).1 := by
  intro us
  induction us with
  | nil => intro e; simp [runUpdates, countAccepted]
  | cons u rest ih =>
    intro e
    have hstep := update_count_step e u.pid u.name u.score u.ts
    by_cases hu : (update e u.pid u.name u.score u.ts).1.status = "accepted" <;>
      simp [runUpdates, countAccepted, List.filter_cons, hu, ih, hstep] <;>
      omega

/-- C6: starting from a fresh store, `update_count` — and therefore the
`total_updates` figure reported by `stats` — equals the number of accepted
updates, however many were rejected; and each single update changes the
counter by exactly one when accepted and zero when rejected. -/
theorem counter_accuracy (t0 now : ℚ) (us : List UpdReq) :
    (runUpdates (freshEngine t0) us).2.update_count =
        countAccepted (runUpdates (freshEngine t0) us).1 ∧
      (stats (runUpdates (freshEngine t0) us).2 now).total_updates =
        countAccepted (runUpdates (freshEngine t0) us).1 ∧
      ∀ (e : LeaderboardEngine) (pid nm : PyVal) (sc : Int) (ts : ℚ),
        (update e pid nm sc ts).2.update_count =
          e.update_count +
            (if (update e pid nm sc ts).1.status = "accepted" then 1 else 0) := by
  refine ⟨?_, ?_, fun e pid nm sc ts => update_count_step e pid nm sc ts⟩
  · simpa [freshEngine] using runUpdates_update_count us (freshEngine t0)
  · simpa [freshEngine, stats] using runUpdates_update_count us (freshEngine t0)

/-! ## C7 — `GET_PLAYER` on an unknown player is a normal ok response -/

/-- A run touching only other players leaves a player's lookup unchanged. -/
theorem dictGet_runUpdates_ne :
    ∀ (us : List UpdReq) (e : LeaderboardEngine) (q : PyVal),
      (∀ u ∈ us, u.pid ≠ q) →
      dictGet (runUpdates e us).2.scores q = dictGet e.scores q := by
  intro us
  induction us with
  | nil => intro e q _; rfl
  | cons u rest ih =>
    intro e q h
    have hq : q ≠ u.pid := fun hq => h u (List.mem_cons_self u rest) hq.symm
    calc dictGet (runUpdates (update e u.pid u.name u.score u.ts).2 rest).2.scores q
        = dictGet (update e u.pid u.name u.score u.ts).2.scores q :=
          ih _ q (fun v hv => h v (List.mem_cons_of_mem u hv))
      _ = dictGet e.scores q := dictGet_update_ne e u.pid u.name u.score u.ts q hq

/-- The handler's `GET_PLAYER` branch, reduced (all decoding of the
two-field request `{"cmd": "GET_PLAYER", "player_id": pid}` is by
computation). -/
theorem handle_get_player (e : LeaderboardEngine) (now : ℚ) (pid : PyVal) :
    handle e now (.decoded [("cmd", .vstr "GET_PLAYER"), ("player_id", pid)]) =
      (match get_player e pid with
       | some r => (Resp.ok (.playerData r), e)
       | none => (Resp.ok (.errPayload "player not found"), e)) := rfl

/-- C7: after any run of updates on a fresh store none of which target
`pid`, a `GET_PLAYER` request for `pid` gets `status: ok` with the
explicit not-found payload `{"error": "player not found"}` (and the store
is untouched); and whenever `pid` is stored, the same request returns the
stored record. -/
theorem get_player_not_found_vs_found (now t0 : ℚ) (us : List UpdReq) (pid : PyVal)
    (h : ∀ u ∈ us, u.pid ≠ pid) :
    (get_player (runUpdates (freshEngine t0) us).2 pid = none ∧
      handle (runUpdates (freshEngine t0) us).2 now
          (.decoded [("cmd", .vstr "GET_PLAYER"), ("player_id", pid)]) =
        (.ok (.errPayload "player not found"), (runUpdates (freshEngine t0) us).2)) ∧
    ∀ (e : LeaderboardEngine) (r : Record), get_player e pid = some r →
      handle e now (.decoded [("cmd", .vstr "GET_PLAYER"), ("player_id", pid)]) =
        (.ok (.playerData r), e) := by
  have hnone : get_player (runUpdates (freshEngine t0) us).2 pid = none :=
    dictGet_runUpdates_ne us (freshEngine t0) pid h
  refine ⟨⟨hnone, ?_⟩, ?_⟩
  · rw [handle_get_player, hnone]
  · intro e r hr
    rw [handle_get_player, show get_player e pid = some r from hr]

/-- Witness for C7: on the store holding only `p1`, `GET_PLAYER ghost` gets
the ok not-found payload and `GET_PLAYER p1` gets the record. -/
theorem get_player_not_found_vs_found_witness :
    (get_player (runUpdates (freshEngine 0)
          [⟨PyVal.vstr "p1", PyVal.vstr "p1", 10, 1⟩]).2 (PyVal.vstr "ghost") = none ∧
      handle (runUpdates (freshEngine 0)
            [⟨PyVal.vstr "p1", PyVal.vstr "p1", 10, 1⟩]).2 5
          (.decoded [("cmd", .vstr "GET_PLAYER"), ("player_id", PyVal.vstr "ghost")]) =
        (.ok (.errPayload "player not found"),
          (runUpdates (freshEngine 0)
            [⟨PyVal.vstr "p1", PyVal.vstr "p1", 10, 1⟩]).2)) ∧
    ∀ (e : LeaderboardEngine) (r : Record), get_player e (PyVal.vstr "ghost") = some r →
      handle e 5 (.decoded [("cmd", .vstr "GET_PLAYER"),
          ("player_id", PyVal.vstr "ghost")]) =
        (.ok (.playerData r), e) :=
  get_player_not_found_vs_found 5 0
    [⟨PyVal.vstr "p1", PyVal.vstr "p1", 10, 1⟩] (PyVal.vstr "ghost") (by decide)

/-! ## C10 — the read operations do not change the store -/

/-- C10: `get_top`, `get_player` and `stats` leave the engine state — the
player mapping, `update_count` and `start_time` — exactly as it was; in
particular the handler, run on any frame whose command resolves to
`GET_TOP`, `GET_PLAYER`, `STATS` or `PING`, returns the engine unchanged.
(The Python bodies only read `self`; `get_top`'s rank writes land on the
snapshot dicts built by its comprehension, never on the store.) -/
theorem read_ops_leave_state (e : LeaderboardEngine) (n : Int) (pid : PyVal)
    (now : ℚ) (m : Msg) :
    (get_topS e n).2 = e ∧ (get_playerS e pid).2 = e ∧ (statsS e now).2 = e ∧
      ∀ c, cmdOf m = some c →
        (c = "GET_TOP" ∨ c = "GET_PLAYER" ∨ c = "STATS" ∨ c = "PING") →
        (handle e now (.decoded m)).2 = e := by
  refine ⟨rfl, rfl, rfl, ?_⟩
  rintro c hc (rfl | rfl | rfl | rfl)
  · simp only [handle]
    rw [hc]
    have key : ∀ o : Option Int,
        (match o with
          | none => (Resp.err "invalid literal for int", e)
          | some k => (Resp.ok (RespData.topData (get_top e k)), e)).2 = e := by
      rintro (_ | k) <;> rfl
    exact key (nArg m)
  · simp only [handle]
    rw [hc]
    have key : ∀ o : Option PyVal,
        (match o with
          | none => (Resp.err "KeyError: player_id", e)
          | some p =>
            match get_player e p with
            | some r => (Resp.ok (RespData.playerData r), e)
            | none => (Resp.ok (RespData.errPayload "player not found"), e)).2 = e := by
      rintro (_ | p)
      · rfl
      · show (match get_player e p with
            | some r => (Resp.ok (RespData.playerData r), e)
            | none => (Resp.ok (RespData.errPayload "player not found"), e)).2 = e
        rcases get_player e p with _ | r <;> rfl
    exact key (msgGet m "player_id")
  · simp only [handle]
    rw [hc]
    try rfl
  · simp only [handle]
    rw [hc]
    try rfl

/-- Witness for C10: a concrete `STATS` frame against a one-player store
leaves the engine exactly as it was. -/
theorem read_ops_leave_state_witness :
    (handle ⟨[(PyVal.vstr "p1", ⟨10, PyVal.vstr "p1", 1⟩)], 1, 0⟩ 2
        (.decoded [("cmd", PyVal.vstr "STATS")])).2 =
      ⟨[(PyVal.vstr "p1", ⟨10, PyVal.vstr "p1", 1⟩)], 1, 0⟩ :=
  (read_ops_leave_state ⟨[(PyVal.vstr "p1", ⟨10, PyVal.vstr "p1", 1⟩)], 1, 0⟩ 0
      (PyVal.vstr "p1") 2 [("cmd", PyVal.vstr "STATS")]).2.2.2 "STATS" rfl
    (Or.inr (Or.inr (Or.inl rfl)))

/-! ## C4 — unknown commands: ok envelope with an error payload -/

/-- Counterexample to C4 as stated: an unrecognized command does *not*
produce a `status: error` envelope.  The handler wraps the payload
`{"error": "unknown command: FROBNICATE"}` in a normal `status: ok`
envelope. -/
theorem unknown_command_cex :
    isErrorResp (handle ⟨[], 0, 0⟩ 0
        (.decoded [("cmd", PyVal.vstr "frobnicate")])).1 = false ∧
      (handle ⟨[], 0, 0⟩ 0 (.decoded [("cmd", PyVal.vstr "frobnicate")])).1 =
        .ok (.errPayload "unknown command: FROBNICATE") ∧
      (handle ⟨[], 0, 0⟩ 0 (.decoded [("cmd", PyVal.vstr "frobnicate")])).2 =
        ⟨[], 0, 0⟩ := by
  decide

/-- C4 (amended): a request whose upper-cased command is none of
`UPDATE`, `GET_TOP`, `GET_PLAYER`, `STATS`, `PING` gets a `status: ok`
envelope whose data is the payload `{"error": "unknown command: <CMD>"}`
naming the unrecognized command; the handler returns (so the session stays
open) and the store state is unchanged. -/
theorem unknown_command_ok_error_payload (e : LeaderboardEngine) (now : ℚ)
    (m : Msg) (c : String) (hc : cmdOf m = some c)
    (h1 : c ≠ "UPDATE") (h2 : c ≠ "GET_TOP") (h3 : c ≠ "GET_PLAYER")
    (h4 : c ≠ "STATS") (h5 : c ≠ "PING") :
    handle e now (.decoded m) =
      (.ok (.errPayload ("unknown command: " ++ c)), e) := by
  simp only [handle]
  rw [hc]
  simp only [if_neg h1, if_neg h2, if_neg h3, if_neg h4, if_neg h5]

/-- Witness for C4's amended theorem at the lowercase command
`frobnicate`. -/
theorem unknown_command_ok_error_payload_witness :
    handle ⟨[], 0, 0⟩ 0 (.decoded [("cmd", PyVal.vstr "frobnicate")]) =
      (.ok (.errPayload ("unknown command: " ++ "FROBNICATE")), ⟨[], 0, 0⟩) :=
  unknown_command_ok_error_payload ⟨[], 0, 0⟩ 0
    [("cmd", PyVal.vstr "frobnicate")] "FROBNICATE" rfl
    (by decide) (by decide) (by decide) (by decide) (by decide)

/-! ## C5 — decode/validation failures: error envelope, no mutation -/

/-- C5: on a malformed frame, or a decoded request with a missing or
wrong-typed required field (non-string `cmd`; `UPDATE` without `player_id`
or `score`, or whose `score`/`ts` fails its numeric coercion; `GET_PLAYER`
without `player_id`; `GET_TOP` with a bad `n`), the handler answers with a
`status: error` envelope carrying a message, never dispatches a mutation:
the engine state — player mapping and `update_count` — is returned
unchanged, and the handler returns normally so the session stays open. -/
theorem bad_request_error_no_mutation (e : LeaderboardEngine) (now : ℚ)
    (f : Frame) (h : badRequest f = true) :
    (∃ s, (handle e now f).1 = Resp.err s) ∧ (handle e now f).2 = e := by
  cases f with
  | malformed raw => exact ⟨⟨_, rfl⟩, rfl⟩
  | decoded m =>
    rcases hc : cmdOf m with _ | cmd
    · have hh : handle e now (.decoded m) = (.err "cmd has no attribute upper", e) := by
        simp only [handle, hc]
      rw [hh]
      exact ⟨⟨_, rfl⟩, rfl⟩
    · simp only [badRequest, hc] at h
      by_cases h1 : cmd = "UPDATE"
      · rw [if_pos h1] at h
        rcases hpid : msgGet m "player_id" with _ | pid
        · have hh : handle e now (.decoded m) = (.err "KeyError: player_id", e) := by
            simp only [handle, hc]
            rw [if_pos h1]
            simp only [hpid]
          rw [hh]
          exact ⟨⟨_, rfl⟩, rfl⟩
        · rcases hsv : msgGet m "score" with _ | sv
          · have hh : handle e now (.decoded m) = (.err "KeyError: score", e) := by
              simp only [handle, hc]
              rw [if_pos h1]
              simp only [hpid, hsv]
            rw [hh]
            exact ⟨⟨_, rfl⟩, rfl⟩
          · rw [hpid, hsv] at h
            simp only [Bool.or_eq_true, Option.isNone_iff_eq_none] at h
            rcases hint : pyInt sv with _ | score
            · have hh : handle e now (.decoded m) = (.err "invalid literal for int", e) := by
                simp only [handle, hc]
                rw [if_pos h1]
                simp only [hpid, hsv, hint]
              rw [hh]
              exact ⟨⟨_, rfl⟩, rfl⟩
            · have hts : tsArg m now = none := by
                rcases h with h | h
                · rw [hint] at h
                  exact Option.noConfusion h
                · rcases htv : msgGet m "ts" with _ | tv
                  · rw [htv] at h
                    exact Bool.noConfusion h
                  · rw [htv] at h
                    simp only [Option.isNone_iff_eq_none] at h
                    simp [tsArg, htv, h]
              have hh : handle e now (.decoded m) =
                  (.err "could not convert to float", e) := by
                simp only [handle, hc]
                rw [if_pos h1]
                simp only [hpid, hsv, hint, hts]
              rw [hh]
              exact ⟨⟨_, rfl⟩, rfl⟩
      · rw [if_neg h1] at h
        by_cases h2 : cmd = "GET_TOP"
        · rw [if_pos h2] at h
          rcases htv : msgGet m "n" with _ | v
          · rw [htv] at h
            exact Bool.noConfusion h
          · rw [htv] at h
            simp only [Option.isNone_iff_eq_none] at h
            have hn : nArg m = none := by simp [nArg, htv, h]
            have hh : handle e now (.decoded m) = (.err "invalid literal for int", e) := by
              simp only [handle, hc]
              rw [if_neg h1, if_pos h2]
              simp only [hn]
            rw [hh]
            exact ⟨⟨_, rfl⟩, rfl⟩
        · rw [if_neg h2] at h
          by_cases h3 : cmd = "GET_PLAYER"
          · rw [if_pos h3] at h
            simp only [Option.isNone_iff_eq_none] at h
            have hh : handle e now (.decoded m) = (.err "KeyError: player_id", e) := by
              simp only [handle, hc]
              rw [if_neg h1, if_neg h2, if_pos h3]
              simp only [h]
            rw [hh]
            exact ⟨⟨_, rfl⟩, rfl⟩
          · rw [if_neg h3] at h
            exact Bool.noConfusion h

/-- Witness for C5: an `UPDATE` frame missing its `score` field gets an
error envelope and leaves a populated store untouched. -/
theorem bad_request_error_no_mutation_witness :
    (∃ s, (handle ⟨[(PyVal.vstr "p1", ⟨10, PyVal.vstr "p1", 1⟩)], 1, 0⟩ 2
        (.decoded [("cmd", PyVal.vstr "UPDATE"),
                   ("player_id", PyVal.vstr "p2")])).1 = Resp.err s) ∧
      (handle ⟨[(PyVal.vstr "p1", ⟨10, PyVal.vstr "p1", 1⟩)], 1, 0⟩ 2
        (.decoded [("cmd", PyVal.vstr "UPDATE"),
                   ("player_id", PyVal.vstr "p2")])).2 =
        ⟨[(PyVal.vstr "p1", ⟨10, PyVal.vstr "p1", 1⟩)], 1, 0⟩ :=
  bad_request_error_no_mutation ⟨[(PyVal.vstr "p1", ⟨10, PyVal.vstr "p1", 1⟩)], 1, 0⟩ 2
    (.decoded [("cmd", PyVal.vstr "UPDATE"), ("player_id", PyVal.vstr "p2")])
    (by decide)

/-! ## C3 — the ranking contract of `get_top` -/

theorem rankfix_map_score (i : Nat) (xs : List Entry) :
    ((List.enumFrom i xs).map fun p => { p.2 with rank := p.1 }).map Entry.score =
      xs.map Entry.score := by
  induction xs generalizing i with
  | nil => rfl
  | cons x xs ih => simp only [List.enumFrom, List.map_cons, ih]

theorem rankfix_map_pid (i : Nat) (xs : List Entry) :
    ((List.enumFrom i xs).map fun p => { p.2 with rank := p.1 }).map Entry.player_id =
      xs.map Entry.player_id := by
  induction xs generalizing i with
  | nil => rfl
  | cons x xs ih => simp only [List.enumFrom, List.map_cons, ih]

theorem rankfix_map_rank (i : Nat) (xs : List Entry) :
    ((List.enumFrom i xs).map fun p => { p.2 with rank := p.1 }).map Entry.rank =
      List.range' i xs.length := by
  induction xs generalizing i with
  | nil => rfl
  | cons x xs ih => simp only [List.enumFrom, List.map_cons, List.length_cons,
      List.range', ih]

theorem scoreDescLe_trans (a b c : Entry) (hab : scoreDescLe a b)
    (hbc : scoreDescLe b c) : scoreDescLe a c := by
  simp only [scoreDescLe, decide_eq_true_eq] at hab hbc ⊢
  omega

theorem scoreDescLe_total (a b : Entry) : scoreDescLe a b || scoreDescLe b a := by
  simp only [scoreDescLe, Bool.or_eq_true, decide_eq_true_eq]
  omega

unseal List.merge List.mergeSort in
/-- Counterexample to C3 as stated, at two concrete inputs.  With two
players tied at score 10, `top(2)` returns scores `[10, 10]`, which are not
strictly descending; and with `n = -1` (the claim quantifies over every
integer `n`) the Python slice `ranked[:-1]` returns 1 entry, more than
`min(n, player_count) = -1`. -/
theorem ranking_contract_cex :
    (get_top ⟨[(PyVal.vstr "p1", ⟨10, PyVal.vstr "p1", 1⟩),
               (PyVal.vstr "p2", ⟨10, PyVal.vstr "p2", 1⟩)], 2, 0⟩ 2).map Entry.score =
        [10, 10] ∧
      ¬ List.Pairwise (fun a b : Int => b < a)
          ((get_top ⟨[(PyVal.vstr "p1", ⟨10, PyVal.vstr "p1", 1⟩),
               (PyVal.vstr "p2", ⟨10, PyVal.vstr "p2", 1⟩)], 2, 0⟩ 2).map Entry.score) ∧
      (get_top ⟨[(PyVal.vstr "p1", ⟨10, PyVal.vstr "p1", 1⟩),
               (PyVal.vstr "p2", ⟨10, PyVal.vstr "p2", 1⟩)], 2, 0⟩ (-1)).length = 1 ∧
      ¬ ((get_top ⟨[(PyVal.vstr "p1", ⟨10, PyVal.vstr "p1", 1⟩),
               (PyVal.vstr "p2", ⟨10, PyVal.vstr "p2", 1⟩)], 2, 0⟩ (-1)).length : Int) ≤
          min (-1 : Int)
            ((⟨[(PyVal.vstr "p1", ⟨10, PyVal.vstr "p1", 1⟩),
               (PyVal.vstr "p2", ⟨10, PyVal.vstr "p2", 1⟩)], 2, 0⟩ :
              LeaderboardEngine).scores.length : Int) := by
  decide

/-- C3 (amended): for every store state and every integer `n ≥ 0`,
`top(n)` returns exactly `min(n, player_count)` entries (hence at most that
many), whose scores are non-increasing (descending, with ties allowed —
two tied players cannot both be ranked strictly below one another), whose
ranks form the contiguous sequence `1, 2, ..., k` where `k` is the length
of the returned sequence, and which consists of the highest-scoring
players: any stored player left out of the result scores no more than
every returned entry. -/
theorem ranking_contract (e : LeaderboardEngine) (n : Int) (h : 0 ≤ n) :
    (get_top e n).length = min n.toNat e.scores.length ∧
      List.Pairwise (fun a b : Entry => b.score ≤ a.score) (get_top e n) ∧
      (get_top e n).map Entry.rank = List.range' 1 (get_top e n).length ∧
      ∀ ent ∈ get_top e n, ∀ p ∈ e.scores,
        p.1 ∉ (get_top e n).map Entry.player_id → p.2.score ≤ ent.score := by
  have hget : get_top e n =
      (List.enumFrom 1 (((e.scores.map snapshotEntry).mergeSort scoreDescLe).take
          n.toNat)).map fun p => { p.2 with rank := p.1 } := by
    simp only [get_top, pySlice, if_pos h]
  have hpw : ((e.scores.map snapshotEntry).mergeSort scoreDescLe).Pairwise
      (fun a b => scoreDescLe a b) :=
    List.sorted_mergeSort scoreDescLe_trans scoreDescLe_total
      (e.scores.map snapshotEntry)
  have hlen : (get_top e n).length = min n.toNat e.scores.length := by
    rw [hget]
    simp [List.length_take]
  refine ⟨hlen, ?_, ?_, ?_⟩
  · -- non-increasing scores
    have hmap : ((get_top e n).map Entry.score).Pairwise
        (fun x y : Int => y ≤ x) := by
      rw [hget, rankfix_map_score]
      rw [List.pairwise_map]
      have := hpw.sublist (List.take_sublist n.toNat _)
      exact this.imp (by
        intro a b hab
        simpa [scoreDescLe] using hab)
    have := List.pairwise_map.mp hmap
    exact this
  · -- contiguous ranks from 1
    rw [hget, rankfix_map_rank]
    simp
  · -- the result consists of the highest-scoring players
    intro ent hent p hp hnot
    have hsp : snapshotEntry p ∈ (e.scores.map snapshotEntry).mergeSort scoreDescLe := by
      rw [List.mem_mergeSort]
      exact List.mem_map_of_mem snapshotEntry hp
    rw [← List.take_append_drop n.toNat
      ((e.scores.map snapshotEntry).mergeSort scoreDescLe)] at hsp
    rcases List.mem_append.mp hsp with hin | hout
    · exact absurd (by
        rw [hget, rankfix_map_pid]
        exact List.mem_map_of_mem Entry.player_id hin) hnot
    · have hsc : ent.score ∈
          (((e.scores.map snapshotEntry).mergeSort scoreDescLe).take n.toNat).map
            Entry.score := by
        rw [← rankfix_map_score 1, ← hget]
        exact List.mem_map_of_mem Entry.score hent
      rcases List.mem_map.mp hsc with ⟨t, ht, hts⟩
      have hpw2 := hpw
      rw [← List.take_append_drop n.toNat
        ((e.scores.map snapshotEntry).mergeSort scoreDescLe)] at hpw2
      have hcross := (List.pairwise_append.mp hpw2).2.2 t ht (snapshotEntry p) hout
      have hle : (snapshotEntry p).score ≤ t.score := by
        simpa [scoreDescLe] using hcross
      rw [hts] at hle
      simpa [snapshotEntry] using hle

unseal List.merge List.mergeSort in
/-- Witness for C3's amended theorem: the two-player store with scores 20
and 10, queried with `n = 10`. -/
theorem ranking_contract_witness :
    (get_top ⟨[(PyVal.vstr "p1", ⟨20, PyVal.vstr "p1", 2⟩),
               (PyVal.vstr "p2", ⟨10, PyVal.vstr "p2", 1⟩)], 2, 0⟩ 10).length =
        min (10 : Int).toNat 2 ∧
      List.Pairwise (fun a b : Entry => b.score ≤ a.score)
        (get_top ⟨[(PyVal.vstr "p1", ⟨20, PyVal.vstr "p1", 2⟩),
               (PyVal.vstr "p2", ⟨10, PyVal.vstr "p2", 1⟩)], 2, 0⟩ 10) ∧
      (get_top ⟨[(PyVal.vstr "p1", ⟨20, PyVal.vstr "p1", 2⟩),
               (PyVal.vstr "p2", ⟨10, PyVal.vstr "p2", 1⟩)], 2, 0⟩ 10).map Entry.rank =
        List.range' 1
          (get_top ⟨[(PyVal.vstr "p1", ⟨20, PyVal.vstr "p1", 2⟩),
               (PyVal.vstr "p2", ⟨10, PyVal.vstr "p2", 1⟩)], 2, 0⟩ 10).length ∧
      ∀ ent ∈ get_top ⟨[(PyVal.vstr "p1", ⟨20, PyVal.vstr "p1", 2⟩),
               (PyVal.vstr "p2", ⟨10, PyVal.vstr "p2", 1⟩)], 2, 0⟩ 10,
        ∀ p ∈ (⟨[(PyVal.vstr "p1", ⟨20, PyVal.vstr "p1", 2⟩),
               (PyVal.vstr "p2", ⟨10, PyVal.vstr "p2", 1⟩)], 2, 0⟩ :
            LeaderboardEngine).scores,
          p.1 ∉ (get_top ⟨[(PyVal.vstr "p1", ⟨20, PyVal.vstr "p1", 2⟩),
               (PyVal.vstr "p2", ⟨10, PyVal.vstr "p2", 1⟩)], 2, 0⟩ 10).map
              Entry.player_id →
            p.2.score ≤ ent.score :=
  ranking_contract ⟨[(PyVal.vstr "p1", ⟨20, PyVal.vstr "p1", 2⟩),
               (PyVal.vstr "p2", ⟨10, PyVal.vstr "p2", 1⟩)], 2, 0⟩ 10 (by decide)

/-! ## C8 — the `stats` figures -/

unseal Rat.mul Rat.add Rat.sub Rat.inv in
/-- Counterexample to C8 as stated: with one accepted update and an elapsed
time of 3 seconds, `updates_per_sec` is `round(1/3, 2) = 0.33`, which is
not `total_updates / max(uptime_seconds, 1) = 1/3` — the code rounds the
quotient to two decimals before reporting it. -/
theorem stats_rate_cex :
    (stats ⟨[(PyVal.vstr "p1", ⟨10, PyVal.vstr "p1", 1⟩)], 1, 0⟩ 3).updates_per_sec =
        mkRat 33 100 ∧
      ((stats ⟨[(PyVal.vstr "p1", ⟨10, PyVal.vstr "p1", 1⟩)], 1, 0⟩ 3).total_updates : ℚ) /
          max (stats ⟨[(PyVal.vstr "p1", ⟨10, PyVal.vstr "p1", 1⟩)], 1, 0⟩ 3).uptime_seconds 1 =
        mkRat 1 3 ∧
      (stats ⟨[(PyVal.vstr "p1", ⟨10, PyVal.vstr "p1", 1⟩)], 1, 0⟩ 3).updates_per_sec ≠
        ((stats ⟨[(PyVal.vstr "p1", ⟨10, PyVal.vstr "p1", 1⟩)], 1, 0⟩ 3).total_updates : ℚ) /
          max (stats ⟨[(PyVal.vstr "p1", ⟨10, PyVal.vstr "p1", 1⟩)], 1, 0⟩ 3).uptime_seconds 1 := by
  decide

/-- C8 (amended): `stats()` reports `total_players` equal to the number of
stored players, and an updates-per-second figure equal to
`total_updates / max(elapsed, 1)` rounded to two decimals, where `elapsed`
is the raw (un-rounded) elapsed time of which `uptime_seconds` is the
two-decimal rounding; the division's denominator `max(elapsed, 1)` is
always at least 1, so the computation never divides by a near-zero elapsed
time. -/
theorem stats_contract (e : LeaderboardEngine) (now : ℚ) :
    (stats e now).total_players = e.scores.length ∧
      (stats e now).uptime_seconds = pyRound2 (now - e.start_time) ∧
      (stats e now).updates_per_sec =
        pyRound2 ((e.update_count : ℚ) / max (now - e.start_time) 1) ∧
      (1 : ℚ) ≤ max (now - e.start_time) 1 :=
  ⟨rfl, rfl, rfl, le_max_right _ _⟩

end Leaderboard
